import Mathlib

set_option linter.unusedVariables false
set_option linter.unnecessarySeqFocus false

/-!
Shallow embedding of `lighthouse-core/gather/gatherers/image-elements.js`.

JavaScript `undefined`/`null` field values are modelled as `Option.none`;
protocol calls are modelled through an explicit `Driver` record of response
functions, and every protocol round-trip performed by the embedded code is
recorded in a `ProtoCall` trace so that claims about which calls happen (and
in which order) can be stated and proved.
-/

/-- String literal constants, bound to names once so they can be reused. -/
def imgTag : String := "img"

def pictureTag : String := "PICTURE"

def mimeStart : String := "image"

def mimeSlashStart : String := "image/"

def extAvif : String := ".avif"

def extWebp : String := ".webp"

def widthProp : String := "width"

def heightProp : String := "height"

def foundPat : List Char := "found".toList

def noNodePat : List Char := "No node".toList

/-- DOMRect projection kept by `getClientRect` in the source. -/
structure ClientRect where
  top : Int
  bottom : Int
  left : Int
  right : Int
  deriving DecidableEq, Repr

/-- One entry of `cssProperties` in a CDP `CSSStyle`. -/
structure CSSProperty where
  name : String
  value : String
  deriving DecidableEq, Repr

/-- A CDP `CSSStyle`: the source guards both on the style object being present
and on its `cssProperties` array being present. -/
structure CSSStyle where
  cssProperties : Option (List CSSProperty)
  deriving DecidableEq, Repr

/-- A CDP `RuleMatch`, with the selector specificity that the external
comparator of `seo/font-size.js` resolves against. -/
structure RuleMatch where
  style : CSSStyle
  specificity : Nat
  deriving DecidableEq, Repr

/-- Shape of the `CSS.getMatchedStylesForNode` response used by the source. -/
structure MatchedStyles where
  inlineStyle : Option CSSStyle
  attributesStyle : Option CSSStyle
  matchedCSSRules : Option (List RuleMatch)
  deriving DecidableEq, Repr

/-- One network transfer record, as consumed by `afterPass`. -/
structure NetworkRecord where
  url : String
  mimeType : String
  finished : Bool
  statusCode : Int
  resourceSize : Nat
  deriving DecidableEq, Repr

/-- The artifact record produced per image candidate.  `node` is reduced to
the `devtoolsNodePath` component, the only part the gatherer reads.
`privateCssSizing` embeds the `_privateCssSizing` field. -/
structure ImageElement where
  src : String
  srcset : String
  displayedWidth : Nat
  displayedHeight : Nat
  clientRect : ClientRect
  naturalWidth : Option Nat
  naturalHeight : Option Nat
  attributeWidth : String
  attributeHeight : String
  cssWidth : Option String
  cssHeight : Option String
  privateCssSizing : Option (Option String × Option String)
  cssComputedPosition : String
  isCss : Bool
  isPicture : Bool
  loading : Option String
  cssComputedObjectFit : String
  cssComputedImageRendering : String
  isInShadowDOM : Bool
  devtoolsNodePath : String
  mimeType : Option String
  deriving DecidableEq, Repr

/-- Protocol round-trips issued by the gatherer during `afterPass`. -/
inductive ProtoCall where
  | domEnable
  | cssEnable
  | domGetDocument
  | pushNodeByPath (path : String)
  | getMatchedStyles (nodeId : Nat)
  | evalDetermineNaturalSize (url : String)
  | domDisable
  | cssDisable
  deriving DecidableEq, Repr

/-- Deterministic model of the browser side of the protocol connection: each
command is a function from its argument to its response.  A `pushNode` or
`matchedStyles` response of `Except.error msg` models a protocol error whose
`message` is `msg`; a `probe` response of `Except.error` models a decode
failure or the 250 ms timeout of `determineNaturalSize`. -/
structure Driver where
  pushNode : String → Except String Nat
  matchedStyles : Nat → Except String MatchedStyles
  probe : String → Except Unit (Nat × Nat)

/-- The `_naturalSizeCache` map, as an association list whose head entry wins. -/
abbrev SizeCache := List (String × (Nat × Nat))

/-! Model of the message test `/No node.*found/.test(err.message)` used in the
catch block of `fetchSourceRules`.  The regex dot does not match a newline. -/

/-- True when the character list has, at some position, a gap of non-newline
characters followed by the literal `found`. -/
def gapThenFound : List Char → Bool
  | [] => false
  | c :: cs => foundPat.isPrefixOf (c :: cs) || (c != '\n' && gapThenFound cs)

/-- True when the character list contains `No node`, followed (after any run of
non-newline characters) by `found`. -/
def noNodeThenFound : List Char → Bool
  | [] => false
  | c :: cs =>
    (noNodePat.isPrefixOf (c :: cs) && gapThenFound ((c :: cs).drop noNodePat.length))
      || noNodeThenFound cs

/-- The source decides whether a protocol error means the node no longer
exists by testing the message against `/No node.*found/`. -/
def isNodeNotFoundMsg (msg : String) : Bool :=
  noNodeThenFound msg.toList

/-! CSS cascade resolution, from `findSizeDeclaration`,
`findMostSpecificCSSRule` and `getEffectiveSizingRule` in the source. -/

/-- JavaScript truthiness of a `string | undefined` value: `undefined` and the
empty string are falsy. -/
def isTruthyValue : Option String → Bool
  | some v => v != ""
  | none => false

/-- Mirrors `findSizeDeclaration(rule, property)`: the value of the first
`cssProperties` entry whose name equals the property, if any. -/
def findSizeDeclaration (rule : Option CSSStyle) (property : String) : Option String :=
  match rule with
  | none => none
  | some r =>
    match r.cssProperties with
    | none => none
    | some props =>
      match props.find? (fun p => p.name == property) with
      | none => none
      | some definedProp => some definedProp.value

/-- Modelled from the spec: `FontSize.findMostSpecificMatchedCSSRule` of
`seo/font-size.js` is not under `src/`.  Per the spec it returns, among the
matched rules whose declaration satisfies the interest predicate, the style of
the most specific one, ties broken by source order with the later rule
winning. -/
def findMostSpecificMatchedCSSRule (matchedCSSRules : Option (List RuleMatch))
    (isOfInterest : CSSStyle → Bool) : Option CSSStyle :=
  match matchedCSSRules with
  | none => none
  | some rules =>
    ((rules.filter (fun rm => isOfInterest rm.style)).foldl
      (fun best rm =>
        match best with
        | none => some rm
        | some b => if b.specificity ≤ rm.specificity then some rm else some b)
      none).map RuleMatch.style

/-- Mirrors `findMostSpecificCSSRule(matchedCSSRules, property)`. -/
def findMostSpecificCSSRule (matchedCSSRules : Option (List RuleMatch))
    (property : String) : Option String :=
  match findMostSpecificMatchedCSSRule matchedCSSRules
      (fun st => isTruthyValue (findSizeDeclaration (some st) property)) with
  | none => none
  | some rule => findSizeDeclaration (some rule) property

/-- Mirrors `getEffectiveSizingRule`.  Each candidate is kept only when it is
truthy in JavaScript, so a declaration whose value is the empty string falls
through exactly as an absent declaration does. -/
def getEffectiveSizingRule (m : MatchedStyles) (property : String) : Option String :=
  let inlineRule := findSizeDeclaration m.inlineStyle property
  if isTruthyValue inlineRule then inlineRule
  else
    let attributeRule := findSizeDeclaration m.attributesStyle property
    if isTruthyValue attributeRule then attributeRule
    else
      let matchedRule := findMostSpecificCSSRule m.matchedCSSRules property
      if isTruthyValue matchedRule then matchedRule
      else none

/-- Helper for stating claim C5: a source declares the property when a
`cssProperties` entry with that name exists, whatever its value. -/
def declaresProp (rule : Option CSSStyle) (property : String) : Bool :=
  (findSizeDeclaration rule property).isSome

/-! Network record indexing, from the `reduce` at the top of `afterPass`. -/

/-- Prefix test on the underlying character lists (the built-in byte-indexed
version does not reduce under kernel evaluation). -/
def strStartsWith (s pre : String) : Bool :=
  pre.toList.isPrefixOf s.toList

/-- ASCII lowercasing of a character list. -/
def lowerChars (l : List Char) : List Char :=
  l.map Char.toLower

/-- Case-insensitive suffix test on the underlying character lists. -/
def strEndsWithCI (s suf : String) : Bool :=
  (lowerChars suf.toList).reverse.isPrefixOf (lowerChars s.toList).reverse

/-- Case-insensitive test of `/\.(avif|webp)$/i` against the whole URL string. -/
def endsWithImageExt (url : String) : Bool :=
  strEndsWithCI url extAvif || strEndsWithCI url extWebp

/-- Mirrors the filter inside the `reduce`: `/^image/.test(record.mimeType)`
(prefix `image`, with no slash required) or the extension test, and the record
finished with status code exactly 200. -/
def recordEntersIndex (r : NetworkRecord) : Bool :=
  (strStartsWith r.mimeType mimeStart || endsWithImageExt r.url)
    && r.finished && (r.statusCode == 200)

/-- Mirrors `indexedNetworkRecords`: a URL-keyed map built left to right, a
later eligible record for the same URL overwriting an earlier one. -/
def indexedNetworkRecords (records : List NetworkRecord) : String → Option NetworkRecord :=
  records.foldl
    (fun map r =>
      if recordEntersIndex r then (fun u => if u == r.url then some r else map u) else map)
    (fun _ => none)

/-- The URL path: the URL up to the first query or fragment delimiter.  Used
only to state claim C7 the way it is written. -/
def urlPath (url : String) : String :=
  String.mk (url.toList.takeWhile (fun c => c != '?' && c != '#'))

/-- The index-eligibility condition exactly as claim C7 words it: MIME type
beginning with `image/`, or the URL path ending in a known image extension,
plus finished with status exactly 200.  Stated for comparison with
`recordEntersIndex`, the condition the code implements. -/
def claimIndexEligible (r : NetworkRecord) : Bool :=
  (strStartsWith r.mimeType mimeSlashStart || endsWithImageExt (urlPath r.url))
    && r.finished && (r.statusCode == 200)

/-! The in-place sort of `afterPass`.  The comparator subtracts the
`resourceSize` fields of the looked-up records; when either lookup misses, the
`\x7c\x7c` fallback is an empty object, its `resourceSize` is `undefined`, and the
subtraction yields `NaN`, which the ECMAScript `SortCompare` coerces to `+0`,
that is, to "the two elements compare equal". -/

/-- The comparator passed to `elements.sort`, with the `NaN`-to-zero coercion
applied. -/
def jsSortCompare (idx : String → Option NetworkRecord) (a b : ImageElement) : Int :=
  match idx a.src, idx b.src with
  | some ra, some rb => (rb.resourceSize : Int) - (ra.resourceSize : Int)
  | _, _ => 0

/-- Stable insertion of an element into an already sorted list: the element
passes another only when the comparator orders it strictly earlier. -/
def orderedInsertJS (cmp : ImageElement → ImageElement → Int) (a : ImageElement) :
    List ImageElement → List ImageElement
  | [] => [a]
  | b :: l => if cmp a b ≤ 0 then a :: b :: l else b :: orderedInsertJS cmp a l

/-- A stable comparator sort, modelling `Array.prototype.sort`, which
ECMAScript 2019 requires to be stable. -/
def sortJS (cmp : ImageElement → ImageElement → Int) : List ImageElement → List ImageElement
  | [] => []
  | a :: l => orderedInsertJS cmp a (sortJS cmp l)

/-- The sort step of `afterPass`. -/
def sortElements (idx : String → Option NetworkRecord) (elements : List ImageElement) :
    List ImageElement :=
  sortJS (jsSortCompare idx) elements

/-! The gatherer methods.  Each returns its result together with the list of
protocol calls it issued, in order. -/

/-- Mirrors `fetchSourceRules`.  The try block spans both protocol commands;
a caught error whose message matches `/No node.*found/` makes the method
return with the element untouched, any other caught error is rethrown.  A
falsy `nodeId` also returns with the element untouched. -/
def fetchSourceRules (d : Driver) (devtoolsNodePath : String) (element : ImageElement) :
    Except String ImageElement × List ProtoCall :=
  match d.pushNode devtoolsNodePath with
  | .error e =>
    if isNodeNotFoundMsg e then (.ok element, [ProtoCall.pushNodeByPath devtoolsNodePath])
    else (.error e, [ProtoCall.pushNodeByPath devtoolsNodePath])
  | .ok nodeId =>
    if nodeId == 0 then (.ok element, [ProtoCall.pushNodeByPath devtoolsNodePath])
    else
      match d.matchedStyles nodeId with
      | .error e =>
        if isNodeNotFoundMsg e then
          (.ok element,
            [ProtoCall.pushNodeByPath devtoolsNodePath, ProtoCall.getMatchedStyles nodeId])
        else
          (.error e,
            [ProtoCall.pushNodeByPath devtoolsNodePath, ProtoCall.getMatchedStyles nodeId])
      | .ok matchedRules =>
        let width := getEffectiveSizingRule matchedRules widthProp
        let height := getEffectiveSizingRule matchedRules heightProp
        (.ok { element with
                cssWidth := width
                cssHeight := height
                privateCssSizing := some (width, height) },
          [ProtoCall.pushNodeByPath devtoolsNodePath, ProtoCall.getMatchedStyles nodeId])

/-- Mirrors `fetchElementWithSizeInformation`.  The source checks the cache
and copies a hit onto the element, but it does not return early on a hit: the
in-page probe below the cache check is issued unconditionally.  A successful
probe stores its result into the cache and overwrites the element; a failed
probe (decode error or 250 ms timeout) leaves whatever the cache copy wrote. -/
def fetchElementWithSizeInformation (d : Driver) (cache : SizeCache)
    (element : ImageElement) : ImageElement × SizeCache × List ProtoCall :=
  let url := element.src
  let element1 :=
    match List.lookup url cache with
    | some sz => { element with naturalWidth := some sz.1, naturalHeight := some sz.2 }
    | none => element
  match d.probe url with
  | .ok sz =>
    ({ element1 with naturalWidth := some sz.1, naturalHeight := some sz.2 },
      (url, sz) :: cache, [ProtoCall.evalDetermineNaturalSize url])
  | .error _ => (element1, cache, [ProtoCall.evalDetermineNaturalSize url])

/-- The per-iteration assignment `element.mimeType = networkRecord.mimeType`,
where `networkRecord` is the index entry defaulted to an empty object, so a
missing record assigns `undefined`. -/
def setMime (idx : String → Option NetworkRecord) (el : ImageElement) : ImageElement :=
  { el with mimeType := (idx el.src).map NetworkRecord.mimeType }

/-- The guarded call to `fetchSourceRules` inside the loop: issued only for
elements that are neither inside a shadow DOM nor CSS background images. -/
def cssStep (d : Driver) (el : ImageElement) : Except String ImageElement × List ProtoCall :=
  if !el.isInShadowDOM && !el.isCss then fetchSourceRules d el.devtoolsNodePath el
  else (.ok el, [])

/-- In the source the natural-size guard is
`(element.isPicture \x7c\x7c element.isCss \x7c\x7c element.srcset) && networkRecord`, where
`networkRecord` is the index entry defaulted to an empty object literal.  An
object is always truthy in JavaScript, so the second conjunct is constant
true; this definition records that fact. -/
def jsRecordOrEmptyTruthy (record : Option NetworkRecord) : Bool :=
  true

/-- The guarded call to `fetchElementWithSizeInformation` inside the loop. -/
def sizeStep (d : Driver) (idx : String → Option NetworkRecord) (cache : SizeCache)
    (el : ImageElement) : ImageElement × SizeCache × List ProtoCall :=
  if (el.isPicture || el.isCss || el.srcset != "") && jsRecordOrEmptyTruthy (idx el.src) then
    fetchElementWithSizeInformation d cache el
  else (el, cache, [])

/-- The enrichment loop of `afterPass` over the sorted elements.  `budget i`
tells whether the 5 s deadline flag `reachedGatheringBudget` is already set
when iteration `i` tests it.  Every iteration assigns `mimeType` first; an
iteration that sees the flag set only increments the skipped counter; a
rethrown protocol error aborts the whole loop. -/
def enrichLoop (d : Driver) (idx : String → Option NetworkRecord) (budget : Nat → Bool) :
    SizeCache → Nat → List ImageElement →
    Except String (List ImageElement × Nat × SizeCache × List ProtoCall)
  | cache, _, [] => .ok ([], 0, cache, [])
  | cache, i, el :: rest =>
    if budget i then
      match enrichLoop d idx budget cache (i + 1) rest with
      | .error e => .error e
      | .ok (els, sk, c, tr) => .ok (setMime idx el :: els, sk + 1, c, tr)
    else
      match cssStep d (setMime idx el) with
      | (.error e, _) => .error e
      | (.ok el2, tr1) =>
        match sizeStep d idx cache el2 with
        | (el3, cache2, tr2) =>
          match enrichLoop d idx budget cache2 (i + 1) rest with
          | .error e => .error e
          | .ok (els, sk, c, tr) => .ok (el3 :: els, sk, c, tr1 ++ tr2 ++ tr)

/-- Mirrors `afterPass`: build the network index, sort the raw element list,
enable the DOM and CSS domains (with the piercing `DOM.getDocument`), run the
enrichment loop from a fresh natural-size cache, and disable both domains.
The raw element list stands for the result of evaluating
`collectImageElementInfo` in the page.  A protocol error rethrown from the
loop propagates out of the whole pass, before the disable commands. -/
def afterPass (d : Driver) (records : List NetworkRecord) (raw : List ImageElement)
    (budget : Nat → Bool) : Except String (List ImageElement × Nat × List ProtoCall) :=
  let idx := indexedNetworkRecords records
  let sorted := sortElements idx raw
  match enrichLoop d idx budget [] 0 sorted with
  | .error e => .error e
  | .ok (els, sk, _, calls) =>
    .ok (els, sk,
      [ProtoCall.domEnable, ProtoCall.cssEnable, ProtoCall.domGetDocument]
        ++ calls ++ [ProtoCall.domDisable, ProtoCall.cssDisable])

/-- Number of leading iterations, starting at index `i` out of `n` remaining,
that run before the budget flag is first seen set. -/
def leadFalse (budget : Nat → Bool) : Nat → Nat → Nat
  | _, 0 => 0
  | i, n + 1 => if budget i then 0 else leadFalse budget (i + 1) n + 1

/-- Number of iterations, starting at index `i` out of `n`, that see the
budget flag set (each of these increments the skipped counter). -/
def skCount (budget : Nat → Bool) : Nat → Nat → Nat
  | _, 0 => 0
  | i, n + 1 => (if budget i then 1 else 0) + skCount budget (i + 1) n

/-! The in-page DOM scan, from `getHTMLImages` and `getPosition`. -/

/-- The slice of a live DOM element that `getHTMLImages` reads.  Computed
style lookups are modelled as fields; `parentTagName` is the tag name of
`parentElement` when one exists; `parentPosition` is the computed `position`
of that parent; `attrWidth`/`attrHeight` model `getAttribute`, which returns
null (here `none`) when the attribute is absent. -/
structure DOMElement where
  localName : String
  parentTagName : Option String
  parentPosition : String
  currentSrc : String
  srcset : String
  width : Nat
  height : Nat
  clientRect : ClientRect
  naturalWidth : Nat
  naturalHeight : Nat
  attrWidth : Option String
  attrHeight : Option String
  position : String
  objectFit : String
  imageRendering : String
  inShadowRoot : Bool
  loading : String
  nodePath : String
  deriving DecidableEq, Repr

/-- Mirrors `getPosition`: the parent style position when the parent is a
`picture` element, else the element computed position. -/
def getPosition (e : DOMElement) : String :=
  if e.parentTagName == some pictureTag then e.parentPosition else e.position

/-- The record `getHTMLImages` builds for one `img` element.  Natural
dimensions are copied from the live element only when it is not inside a
`picture` and its `srcset` is falsy (the empty string); otherwise they are
left `undefined` for later resolution. -/
def htmlImageElement (e : DOMElement) : ImageElement :=
  let isPicture := e.parentTagName == some pictureTag
  let canTrustNaturalDimensions := !isPicture && e.srcset == ""
  { src := e.currentSrc
    srcset := e.srcset
    displayedWidth := e.width
    displayedHeight := e.height
    clientRect := e.clientRect
    naturalWidth := if canTrustNaturalDimensions then some e.naturalWidth else none
    naturalHeight := if canTrustNaturalDimensions then some e.naturalHeight else none
    attributeWidth := e.attrWidth.getD ""
    attributeHeight := e.attrHeight.getD ""
    cssWidth := none
    cssHeight := none
    privateCssSizing := none
    cssComputedPosition := getPosition e
    isCss := false
    isPicture := isPicture
    loading := some e.loading
    cssComputedObjectFit := e.objectFit
    cssComputedImageRendering := e.imageRendering
    isInShadowDOM := e.inShadowRoot
    devtoolsNodePath := e.nodePath
    mimeType := none }

/-- Mirrors `getHTMLImages`: filter all elements down to `img` tags, then map
each to its artifact record.  The scan runs synchronously in the page and
issues no protocol call. -/
def getHTMLImages (allElements : List DOMElement) : List ImageElement :=
  (allElements.filter (fun e => e.localName == imgTag)).map htmlImageElement

/-- Projection of a pass result onto its protocol-call trace (empty on an
aborted pass). -/
def traceOf : Except String (List ImageElement × Nat × List ProtoCall) → List ProtoCall
  | .ok (_, _, tr) => tr
  | .error _ => []

/-- Projection of a pass result onto its element list. -/
def elementsOf : Except String (List ImageElement × Nat × List ProtoCall) → List ImageElement
  | .ok (els, _, _) => els
  | .error _ => []

/-- Projection of a pass result onto its skipped counter. -/
def skippedOf : Except String (List ImageElement × Nat × List ProtoCall) → Nat
  | .ok (_, sk, _) => sk
  | .error _ => 0

/-! Concrete fixtures used by the counterexamples and witnesses below. -/

/-- A zero rectangle. -/
def rect0 : ClientRect :=
  { top := 0, bottom := 0, left := 0, right := 0 }

/-- A baseline artifact record; fixtures override the fields they care about. -/
def baseElement : ImageElement :=
  { src := ""
    srcset := ""
    displayedWidth := 0
    displayedHeight := 0
    clientRect := rect0
    naturalWidth := none
    naturalHeight := none
    attributeWidth := ""
    attributeHeight := ""
    cssWidth := none
    cssHeight := none
    privateCssSizing := none
    cssComputedPosition := "static"
    isCss := false
    isPicture := false
    loading := none
    cssComputedObjectFit := ""
    cssComputedImageRendering := "auto"
    isInShadowDOM := false
    devtoolsNodePath := ""
    mimeType := none }

/-- A baseline DOM element; fixtures override the fields they care about. -/
def baseDOM : DOMElement :=
  { localName := "img"
    parentTagName := none
    parentPosition := "static"
    currentSrc := ""
    srcset := ""
    width := 0
    height := 0
    clientRect := rect0
    naturalWidth := 0
    naturalHeight := 0
    attrWidth := none
    attrHeight := none
    position := "static"
    objectFit := ""
    imageRendering := "auto"
    inShadowRoot := false
    loading := ""
    nodePath := "" }

/-- An empty matched-styles response. -/
def emptyMatched : MatchedStyles :=
  { inlineStyle := none, attributesStyle := none, matchedCSSRules := none }

/-- A driver whose probe always succeeds with dimensions 7 by 8. -/
def dProbeOK : Driver :=
  { pushNode := fun _ => .ok 1
    matchedStyles := fun _ => .ok emptyMatched
    probe := fun _ => .ok (7, 8) }

/-- An unexpected protocol error message (does not match the node-gone test). -/
def errBoom : String := "Protocol error: boom"

/-- The browser message produced when the pushed node no longer exists. -/
def msgNodeGone : String := "No node with given id found"

/-- A driver whose node push fails with an unexpected protocol error. -/
def dErr : Driver :=
  { pushNode := fun _ => .error errBoom
    matchedStyles := fun _ => .error errBoom
    probe := fun _ => .error () }

/-- A driver whose node push fails because the node no longer exists. -/
def dNodeGone : Driver :=
  { pushNode := fun _ => .error msgNodeGone
    matchedStyles := fun _ => .error msgNodeGone
    probe := fun _ => .error () }

/-- A driver where the push succeeds but the matched-styles query reports the
node gone. -/
def dStylesGone : Driver :=
  { pushNode := fun _ => .ok 5
    matchedStyles := fun _ => .error msgNodeGone
    probe := fun _ => .error () }

/-- Element fixture: a plain image with a cached natural size (claim C1). -/
def elA : ImageElement :=
  { baseElement with src := "a.png" }

/-- Cache fixture holding a natural size for the URL of `elA`. -/
def cacheA : SizeCache := [(elA.src, (3, 4))]

/-- Element fixture: a CSS background image with URL `b.jpg` (claim C1). -/
def elB : ImageElement :=
  { baseElement with src := "b.jpg", isCss := true }

/-- Network record matching `elB`. -/
def recB : NetworkRecord :=
  { url := "b.jpg", mimeType := "image/jpeg", finished := true, statusCode := 200
    resourceSize := 10 }

/-- Element fixture with no matching network record (claim C2). -/
def elU : ImageElement :=
  { baseElement with src := "u.png" }

/-- Element fixture with a matching network record of size 100 (claim C2). -/
def elM : ImageElement :=
  { baseElement with src := "m.jpg" }

/-- Network record matching `elM`. -/
def recM : NetworkRecord :=
  { url := "m.jpg", mimeType := "image/jpeg", finished := true, statusCode := 200
    resourceSize := 100 }

/-- Element fixture: a CSS background image whose URL never transferred
(claim C3). -/
def elC : ImageElement :=
  { baseElement with src := "u.bin", isCss := true }

/-- Element fixture: a plain image element outside any shadow DOM, with a node
path, used for error-propagation runs (claim C6). -/
def elImg : ImageElement :=
  { baseElement with src := "i.png", devtoolsNodePath := "1,HTML,1,BODY,0,IMG" }

/-- Network record fixture for claim C7: MIME type starting with `image` but
not `image/`, URL without an image extension. -/
def rexMime : NetworkRecord :=
  { url := "http://a/f.bin", mimeType := "imagex", finished := true, statusCode := 200
    resourceSize := 1 }

/-- Network record fixture for claim C7: generic binary MIME type, URL whose
path ends in `.webp` but which carries a query string. -/
def rexQuery : NetworkRecord :=
  { url := "http://a/p.webp?v=1", mimeType := "application/octet-stream"
    finished := true, statusCode := 200, resourceSize := 1 }

/-- Network record fixture for claim C7: status 200 but unfinished. -/
def rexUnfinished : NetworkRecord :=
  { url := "http://a/q.png", mimeType := "image/png", finished := false, statusCode := 200
    resourceSize := 1 }

/-- Network record fixture for claim C7: octet-stream with URL ending
`.webp` and no query string. -/
def rexWebp : NetworkRecord :=
  { url := "http://a/p.webp", mimeType := "application/octet-stream"
    finished := true, statusCode := 200, resourceSize := 1 }

/-- The empty string, named so it can appear where a literal may not. -/
def emptyStr : String := ""

/-- Value fixtures for the cascade claims. -/
def px5 : String := "5px"

def px7 : String := "7px"

def px8 : String := "8px"

def px9 : String := "9px"

/-- Matched-styles fixture for the C5 counterexample: the inline style
declares `width` with an empty value, the attribute style declares `width`
with value `5px`. -/
def mEmptyInline : MatchedStyles :=
  { inlineStyle := some { cssProperties := some [{ name := widthProp, value := emptyStr }] }
    attributesStyle := some { cssProperties := some [{ name := widthProp, value := px5 }] }
    matchedCSSRules := none }

/-- Matched-styles fixture for the C5 witness: inline `width: 7px`, attribute
`width: 8px`, one matched rule `width: 9px`. -/
def mFull : MatchedStyles :=
  { inlineStyle := some { cssProperties := some [{ name := widthProp, value := px7 }] }
    attributesStyle := some { cssProperties := some [{ name := widthProp, value := px8 }] }
    matchedCSSRules :=
      some [{ style := { cssProperties := some [{ name := widthProp, value := px9 }] }
              specificity := 1 }] }

/-- DOM fixture: an `img` with no srcset and no picture parent (claim C8). -/
def eTrusted : DOMElement :=
  { baseDOM with currentSrc := "t.png", naturalWidth := 42, naturalHeight := 17 }

/-- DOM fixture: an `img` carrying a srcset (claim C8). -/
def eSrcset : DOMElement :=
  { baseDOM with
    currentSrc := "s.png"
    srcset := "s2.png 2x"
    naturalWidth := 9
    naturalHeight := 9 }

/-- A budget schedule on which the deadline has already fired. -/
def budgetAlways : Nat → Bool := fun _ => true

/-- A budget schedule on which the deadline never fires. -/
def budgetNever : Nat → Bool := fun _ => false

/-- A driver whose matched-styles query answers with `mFull`. -/
def dFull : Driver :=
  { pushNode := fun _ => .ok 2
    matchedStyles := fun _ => .ok mFull
    probe := fun _ => .error () }

/-- The byte size the claims compare elements by: the matched network record
resource size, with unmatched elements counting as 0. -/
def sizeKey (idx : String → Option NetworkRecord) (el : ImageElement) : Nat :=
  match idx el.src with
  | some r => r.resourceSize
  | none => 0

/-- Concrete pass: two CSS background elements sharing one URL, a matching
network record, an unexpired budget (claim C1). -/
def runC1 : Except String (List ImageElement × Nat × List ProtoCall) :=
  afterPass dProbeOK [recB] [elB, elB] budgetNever

/-- Concrete pass: a CSS background element whose URL has no network record,
an unexpired budget (claim C3). -/
def runC3 : Except String (List ImageElement × Nat × List ProtoCall) :=
  afterPass dProbeOK [] [elC] budgetNever

/-- Concrete pass: the budget already expired at entry (claims C4 and C9). -/
def runC4 : Except String (List ImageElement × Nat × List ProtoCall) :=
  afterPass dProbeOK [recB] [elB, elU] budgetAlways

/-- Concrete pass for the C9 witness. -/
def runC9 : Except String (List ImageElement × Nat × List ProtoCall) :=
  afterPass dProbeOK [] [elB] budgetAlways

/-- Concrete pass for the C10 witness. -/
def runC10 : Except String (List ImageElement × Nat × List ProtoCall) :=
  afterPass dProbeOK [] [elC] budgetNever

/-! Helper lemmas about the per-element steps. -/

/-- A protocol call that enables or disables a domain (or the piercing
document fetch issued alongside the enables). -/
def isDomainCall : ProtoCall → Bool
  | .domEnable => true
  | .cssEnable => true
  | .domGetDocument => true
  | .domDisable => true
  | .cssDisable => true
  | _ => false

theorem setMime_fields (idx : String → Option NetworkRecord) (el : ImageElement) :
    (setMime idx el).src = el.src ∧ (setMime idx el).srcset = el.srcset ∧
    (setMime idx el).isCss = el.isCss ∧ (setMime idx el).isPicture = el.isPicture ∧
    (setMime idx el).isInShadowDOM = el.isInShadowDOM ∧
    (setMime idx el).devtoolsNodePath = el.devtoolsNodePath ∧
    (setMime idx el).cssWidth = el.cssWidth ∧ (setMime idx el).cssHeight = el.cssHeight ∧
    (setMime idx el).privateCssSizing = el.privateCssSizing ∧
    (setMime idx el).mimeType = (idx el.src).map NetworkRecord.mimeType := by
  unfold setMime
  simp

theorem fetchSourceRules_ok_fields (d : Driver) (p : String) (el el' : ImageElement)
    (h : (fetchSourceRules d p el).1 = Except.ok el') :
    el'.src = el.src ∧ el'.srcset = el.srcset ∧ el'.isCss = el.isCss ∧
    el'.isPicture = el.isPicture ∧ el'.isInShadowDOM = el.isInShadowDOM ∧
    el'.devtoolsNodePath = el.devtoolsNodePath ∧ el'.mimeType = el.mimeType ∧
    el'.naturalWidth = el.naturalWidth ∧ el'.naturalHeight = el.naturalHeight := by
  unfold fetchSourceRules at h
  cases hp : d.pushNode p <;> rw [hp] at h
  case error e =>
    by_cases hm : isNodeNotFoundMsg e <;> simp [hm] at h <;> simp [← h]
  case ok n =>
    by_cases hz : (n == 0) = true
    · simp [hz] at h
      simp [← h]
    · simp only [hz, Bool.false_eq_true, if_false] at h
      cases hs : d.matchedStyles n with
      | error e =>
        rw [hs] at h
        by_cases hm : isNodeNotFoundMsg e <;> simp [hm] at h <;> simp [← h]
      | ok m =>
        rw [hs] at h
        simp at h
        simp [← h]

theorem fetchSourceRules_trace (d : Driver) (p : String) (el : ImageElement) :
    ∀ c ∈ (fetchSourceRules d p el).2,
      c = ProtoCall.pushNodeByPath p ∨ ∃ n, c = ProtoCall.getMatchedStyles n := by
  intro c hc
  unfold fetchSourceRules at hc
  cases hp : d.pushNode p <;> rw [hp] at hc
  case error e =>
    by_cases hm : isNodeNotFoundMsg e <;> simp [hm] at hc <;> simp [hc]
  case ok n =>
    by_cases hz : (n == 0) = true
    · simp [hz] at hc
      simp [hc]
    · simp only [hz, Bool.false_eq_true, if_false] at hc
      cases hs : d.matchedStyles n with
      | error e =>
        rw [hs] at hc
        by_cases hm : isNodeNotFoundMsg e <;> simp [hm] at hc <;>
          rcases hc with hc | hc <;> simp [hc]
      | ok m =>
        rw [hs] at hc
        simp at hc
        rcases hc with hc | hc <;> simp [hc]

theorem fetchSize_trace (d : Driver) (cache : SizeCache) (el : ImageElement) :
    (fetchElementWithSizeInformation d cache el).2.2
      = [ProtoCall.evalDetermineNaturalSize el.src] := by
  unfold fetchElementWithSizeInformation
  cases hl : List.lookup el.src cache <;> cases hp : d.probe el.src <;> simp [hl, hp]

theorem fetchSize_fields (d : Driver) (cache : SizeCache) (el : ImageElement) :
    ((fetchElementWithSizeInformation d cache el).1).src = el.src ∧
    ((fetchElementWithSizeInformation d cache el).1).srcset = el.srcset ∧
    ((fetchElementWithSizeInformation d cache el).1).isCss = el.isCss ∧
    ((fetchElementWithSizeInformation d cache el).1).isPicture = el.isPicture ∧
    ((fetchElementWithSizeInformation d cache el).1).isInShadowDOM = el.isInShadowDOM ∧
    ((fetchElementWithSizeInformation d cache el).1).devtoolsNodePath = el.devtoolsNodePath ∧
    ((fetchElementWithSizeInformation d cache el).1).mimeType = el.mimeType ∧
    ((fetchElementWithSizeInformation d cache el).1).cssWidth = el.cssWidth ∧
    ((fetchElementWithSizeInformation d cache el).1).cssHeight = el.cssHeight ∧
    ((fetchElementWithSizeInformation d cache el).1).privateCssSizing = el.privateCssSizing := by
  unfold fetchElementWithSizeInformation
  cases hl : List.lookup el.src cache <;> cases hp : d.probe el.src <;> simp [hl, hp]

theorem cssStep_ok_fields (d : Driver) (el el' : ImageElement)
    (h : (cssStep d el).1 = Except.ok el') :
    el'.src = el.src ∧ el'.srcset = el.srcset ∧ el'.isCss = el.isCss ∧
    el'.isPicture = el.isPicture ∧ el'.isInShadowDOM = el.isInShadowDOM ∧
    el'.devtoolsNodePath = el.devtoolsNodePath ∧ el'.mimeType = el.mimeType ∧
    el'.naturalWidth = el.naturalWidth ∧ el'.naturalHeight = el.naturalHeight := by
  unfold cssStep at h
  by_cases hg : (!el.isInShadowDOM && !el.isCss) = true
  · rw [if_pos hg] at h
    exact fetchSourceRules_ok_fields d el.devtoolsNodePath el el' h
  · rw [if_neg hg] at h
    simp at h
    simp [← h]

theorem cssStep_skip (d : Driver) (el : ImageElement)
    (h : el.isInShadowDOM = true ∨ el.isCss = true) :
    cssStep d el = (Except.ok el, []) := by
  unfold cssStep
  rcases h with h | h <;> simp [h]

theorem cssStep_push_mem (d : Driver) (el : ImageElement) (q : String)
    (h : ProtoCall.pushNodeByPath q ∈ (cssStep d el).2) :
    el.isInShadowDOM = false ∧ el.isCss = false ∧ q = el.devtoolsNodePath := by
  unfold cssStep at h
  by_cases hg : (!el.isInShadowDOM && !el.isCss) = true
  · rw [if_pos hg] at h
    simp only [Bool.and_eq_true, Bool.not_eq_true'] at hg
    rcases fetchSourceRules_trace d el.devtoolsNodePath el _ h with hc | ⟨n, hc⟩
    · exact ⟨hg.1, hg.2, by injection hc⟩
    · exact absurd hc (by simp)
  · rw [if_neg hg] at h
    simp at h

theorem cssStep_trace (d : Driver) (el : ImageElement) :
    ∀ c ∈ (cssStep d el).2,
      c = ProtoCall.pushNodeByPath el.devtoolsNodePath ∨ ∃ n, c = ProtoCall.getMatchedStyles n := by
  intro c hc
  unfold cssStep at hc
  by_cases hg : (!el.isInShadowDOM && !el.isCss) = true
  · rw [if_pos hg] at hc
    exact fetchSourceRules_trace d el.devtoolsNodePath el c hc
  · rw [if_neg hg] at hc
    simp at hc

theorem sizeStep_fields (d : Driver) (idx : String → Option NetworkRecord) (cache : SizeCache)
    (el : ImageElement) :
    ((sizeStep d idx cache el).1).src = el.src ∧
    ((sizeStep d idx cache el).1).srcset = el.srcset ∧
    ((sizeStep d idx cache el).1).isCss = el.isCss ∧
    ((sizeStep d idx cache el).1).isPicture = el.isPicture ∧
    ((sizeStep d idx cache el).1).isInShadowDOM = el.isInShadowDOM ∧
    ((sizeStep d idx cache el).1).devtoolsNodePath = el.devtoolsNodePath ∧
    ((sizeStep d idx cache el).1).mimeType = el.mimeType ∧
    ((sizeStep d idx cache el).1).cssWidth = el.cssWidth ∧
    ((sizeStep d idx cache el).1).cssHeight = el.cssHeight ∧
    ((sizeStep d idx cache el).1).privateCssSizing = el.privateCssSizing := by
  unfold sizeStep
  by_cases hg : ((el.isPicture || el.isCss || el.srcset != "")
      && jsRecordOrEmptyTruthy (idx el.src)) = true
  · rw [if_pos hg]
    exact fetchSize_fields d cache el
  · rw [if_neg hg]
    simp

theorem sizeStep_trace (d : Driver) (idx : String → Option NetworkRecord) (cache : SizeCache)
    (el : ImageElement) :
    ∀ c ∈ (sizeStep d idx cache el).2.2, ∃ u, c = ProtoCall.evalDetermineNaturalSize u := by
  intro c hc
  unfold sizeStep at hc
  by_cases hg : ((el.isPicture || el.isCss || el.srcset != "")
      && jsRecordOrEmptyTruthy (idx el.src)) = true
  · rw [if_pos hg] at hc
    rw [fetchSize_trace] at hc
    simp at hc
    exact ⟨el.src, hc⟩
  · rw [if_neg hg] at hc
    simp at hc

theorem length_orderedInsertJS (cmp : ImageElement → ImageElement → Int) (a : ImageElement)
    (l : List ImageElement) : (orderedInsertJS cmp a l).length = l.length + 1 := by
  induction l with
  | nil => rfl
  | cons b t ih =>
    unfold orderedInsertJS
    by_cases h : cmp a b ≤ 0 <;> simp [h, ih]

theorem length_sortJS (cmp : ImageElement → ImageElement → Int) (l : List ImageElement) :
    (sortJS cmp l).length = l.length := by
  induction l with
  | nil => rfl
  | cons a t ih =>
    unfold sortJS
    rw [length_orderedInsertJS, ih]
    simp

theorem length_sortElements (idx : String → Option NetworkRecord) (l : List ImageElement) :
    (sortElements idx l).length = l.length :=
  length_sortJS (jsSortCompare idx) l

theorem enrichLoop_ok_len_sk (d : Driver) (idx : String → Option NetworkRecord)
    (budget : Nat → Bool) :
    ∀ (l : List ImageElement) (cache : SizeCache) (i : Nat) (out : List ImageElement)
      (sk : Nat) (c : SizeCache) (tr : List ProtoCall),
      enrichLoop d idx budget cache i l = Except.ok (out, sk, c, tr) →
      out.length = l.length ∧ sk = skCount budget i l.length := by
  intro l
  induction l with
  | nil =>
    intro cache i out sk c tr h
    simp only [enrichLoop, Except.ok.injEq, Prod.mk.injEq] at h
    obtain ⟨h1, h2, h3, h4⟩ := h
    subst h1
    subst h2
    simp [skCount]
  | cons el rest ih =>
    intro cache i out sk c tr h
    unfold enrichLoop at h
    by_cases hb : budget i = true
    · rw [if_pos hb] at h
      cases hrec : enrichLoop d idx budget cache (i + 1) rest with
      | error e =>
        rw [hrec] at h
        exact absurd h (by simp)
      | ok q =>
        obtain ⟨els, sk', c', tr'⟩ := q
        rw [hrec] at h
        simp only [Except.ok.injEq, Prod.mk.injEq] at h
        obtain ⟨h1, h2, h3, h4⟩ := h
        subst h1
        subst h2
        obtain ⟨ihl, ihs⟩ := ih cache (i + 1) els sk' c' tr' hrec
        constructor
        · simp [ihl]
        · simp [skCount, hb, ihs]
          omega
    · rw [if_neg hb] at h
      cases hcs : cssStep d (setMime idx el) with
      | mk res tr1 =>
        rw [hcs] at h
        simp only [] at h
        cases res with
        | error e => simp at h
        | ok el2 =>
          simp only [] at h
          cases hss : sizeStep d idx cache el2 with
          | mk el3 pr =>
            obtain ⟨cache2, tr2⟩ := pr
            rw [hss] at h
            simp only [] at h
            cases hrec : enrichLoop d idx budget cache2 (i + 1) rest with
            | error e =>
              rw [hrec] at h
              exact absurd h (by simp)
            | ok q =>
              obtain ⟨els, sk', c', tr'⟩ := q
              rw [hrec] at h
              simp only [Except.ok.injEq, Prod.mk.injEq] at h
              obtain ⟨h1, h2, h3, h4⟩ := h
              subst h1
              subst h2
              obtain ⟨ihl, ihs⟩ := ih cache2 (i + 1) els sk' c' tr' hrec
              constructor
              · simp [ihl]
              · simp [skCount, hb, ihs]

theorem enrichLoop_ok_pointwise (d : Driver) (idx : String → Option NetworkRecord)
    (budget : Nat → Bool) :
    ∀ (l : List ImageElement) (cache : SizeCache) (i : Nat) (out : List ImageElement)
      (sk : Nat) (c : SizeCache) (tr : List ProtoCall),
      enrichLoop d idx budget cache i l = Except.ok (out, sk, c, tr) →
      (∀ j, budget (i + j) = true → out[j]? = (l[j]?).map (setMime idx)) ∧
      (∀ (j : Nat) (el0 : ImageElement), l[j]? = some el0 →
        ∃ el', out[j]? = some el' ∧ el'.src = el0.src ∧ el'.srcset = el0.srcset ∧
          el'.isCss = el0.isCss ∧ el'.isPicture = el0.isPicture ∧
          el'.isInShadowDOM = el0.isInShadowDOM ∧
          el'.devtoolsNodePath = el0.devtoolsNodePath ∧
          el'.mimeType = (idx el0.src).map NetworkRecord.mimeType ∧
          ((el0.isInShadowDOM = true ∨ el0.isCss = true) →
            el'.cssWidth = el0.cssWidth ∧ el'.cssHeight = el0.cssHeight ∧
            el'.privateCssSizing = el0.privateCssSizing)) := by
  intro l
  induction l with
  | nil =>
    intro cache i out sk c tr h
    simp only [enrichLoop, Except.ok.injEq, Prod.mk.injEq] at h
    obtain ⟨h1, h2, h3, h4⟩ := h
    subst h1
    constructor
    · intro j hbj
      simp
    · intro j el0 hj
      simp at hj
  | cons el rest ih =>
    intro cache i out sk c tr h
    unfold enrichLoop at h
    by_cases hb : budget i = true
    · rw [if_pos hb] at h
      cases hrec : enrichLoop d idx budget cache (i + 1) rest with
      | error e =>
        rw [hrec] at h
        exact absurd h (by simp)
      | ok q =>
        obtain ⟨els, sk', c', tr'⟩ := q
        rw [hrec] at h
        simp only [Except.ok.injEq, Prod.mk.injEq] at h
        obtain ⟨h1, h2, h3, h4⟩ := h
        subst h1
        obtain ⟨ihskip, ihcore⟩ := ih cache (i + 1) els sk' c' tr' hrec
        constructor
        · intro j hbj
          cases j with
          | zero => simp
          | succ j =>
            have hj' : i + (j + 1) = (i + 1) + j := by omega
            rw [hj'] at hbj
            simpa using ihskip j hbj
        · intro j el0 hj
          cases j with
          | zero =>
            simp at hj
            subst hj
            refine ⟨setMime idx el, by simp, ?_⟩
            simp [setMime]
          | succ j =>
            simp only [List.getElem?_cons_succ] at hj
            simpa using ihcore j el0 hj
    · rw [if_neg hb] at h
      cases hcs : cssStep d (setMime idx el) with
      | mk res tr1 =>
        rw [hcs] at h
        simp only [] at h
        cases res with
        | error e => simp at h
        | ok el2 =>
          simp only [] at h
          cases hss : sizeStep d idx cache el2 with
          | mk el3 pr =>
            obtain ⟨cache2, tr2⟩ := pr
            rw [hss] at h
            simp only [] at h
            cases hrec : enrichLoop d idx budget cache2 (i + 1) rest with
            | error e =>
              rw [hrec] at h
              exact absurd h (by simp)
            | ok q =>
              obtain ⟨els, sk', c', tr'⟩ := q
              rw [hrec] at h
              simp only [Except.ok.injEq, Prod.mk.injEq] at h
              obtain ⟨h1, h2, h3, h4⟩ := h
              subst h1
              obtain ⟨ihskip, ihcore⟩ := ih cache2 (i + 1) els sk' c' tr' hrec
              have hcf := cssStep_ok_fields d (setMime idx el) el2 (by rw [hcs])
              obtain ⟨s1, s2, s3, s4, s5, s6, s7, s8, s9⟩ := hcf
              have hsf := sizeStep_fields d idx cache el2
              rw [hss] at hsf
              simp only [] at hsf
              obtain ⟨z1, z2, z3, z4, z5, z6, z7, z8, z9, z10⟩ := hsf
              constructor
              · intro j hbj
                cases j with
                | zero =>
                  rw [Nat.add_zero] at hbj
                  exact absurd hbj hb
                | succ j =>
                  have hj' : i + (j + 1) = (i + 1) + j := by omega
                  rw [hj'] at hbj
                  simpa using ihskip j hbj
              · intro j el0 hj
                cases j with
                | zero =>
                  simp at hj
                  subst hj
                  refine ⟨el3, by simp, ?_, ?_, ?_, ?_, ?_, ?_, ?_, ?_⟩
                  · rw [z1, s1]; simp [setMime]
                  · rw [z2, s2]; simp [setMime]
                  · rw [z3, s3]; simp [setMime]
                  · rw [z4, s4]; simp [setMime]
                  · rw [z5, s5]; simp [setMime]
                  · rw [z6, s6]; simp [setMime]
                  · rw [z7, s7]; simp [setMime]
                  · intro h0
                    have h0' : (setMime idx el).isInShadowDOM = true ∨ (setMime idx el).isCss = true := by
                      simpa [setMime] using h0
                    have hskipcss := cssStep_skip d (setMime idx el) h0'
                    rw [hskipcss] at hcs
                    have hel2 : el2 = setMime idx el := by
                      have := congrArg Prod.fst hcs
                      simp at this
                      exact this.symm
                    subst hel2
                    refine ⟨?_, ?_, ?_⟩
                    · rw [z8]; simp [setMime]
                    · rw [z9]; simp [setMime]
                    · rw [z10]; simp [setMime]
                | succ j =>
                  simp only [List.getElem?_cons_succ] at hj
                  simpa using ihcore j el0 hj

theorem enrichLoop_ok_trace (d : Driver) (idx : String → Option NetworkRecord)
    (budget : Nat → Bool) :
    ∀ (l : List ImageElement) (cache : SizeCache) (i : Nat) (out : List ImageElement)
      (sk : Nat) (c : SizeCache) (tr : List ProtoCall),
      enrichLoop d idx budget cache i l = Except.ok (out, sk, c, tr) →
      (∀ q : String, ProtoCall.pushNodeByPath q ∈ tr →
        ∃ el0 ∈ l, el0.devtoolsNodePath = q ∧ el0.isInShadowDOM = false ∧ el0.isCss = false) ∧
      (∀ call ∈ tr, isDomainCall call = false) := by
  intro l
  induction l with
  | nil =>
    intro cache i out sk c tr h
    simp only [enrichLoop, Except.ok.injEq, Prod.mk.injEq] at h
    obtain ⟨h1, h2, h3, h4⟩ := h
    subst h4
    constructor
    · intro q hq
      simp at hq
    · intro call hc
      simp at hc
  | cons el rest ih =>
    intro cache i out sk c tr h
    unfold enrichLoop at h
    by_cases hb : budget i = true
    · rw [if_pos hb] at h
      cases hrec : enrichLoop d idx budget cache (i + 1) rest with
      | error e =>
        rw [hrec] at h
        exact absurd h (by simp)
      | ok q =>
        obtain ⟨els, sk', c', tr'⟩ := q
        rw [hrec] at h
        simp only [Except.ok.injEq, Prod.mk.injEq] at h
        obtain ⟨h1, h2, h3, h4⟩ := h
        subst h4
        obtain ⟨ihpush, ihdom⟩ := ih cache (i + 1) els sk' c' tr' hrec
        constructor
        · intro q hq
          obtain ⟨el0, hel0, hrest⟩ := ihpush q hq
          exact ⟨el0, List.mem_cons_of_mem el hel0, hrest⟩
        · exact ihdom
    · rw [if_neg hb] at h
      cases hcs : cssStep d (setMime idx el) with
      | mk res tr1 =>
        rw [hcs] at h
        simp only [] at h
        cases res with
        | error e => simp at h
        | ok el2 =>
          simp only [] at h
          cases hss : sizeStep d idx cache el2 with
          | mk el3 pr =>
            obtain ⟨cache2, tr2⟩ := pr
            rw [hss] at h
            simp only [] at h
            cases hrec : enrichLoop d idx budget cache2 (i + 1) rest with
            | error e =>
              rw [hrec] at h
              exact absurd h (by simp)
            | ok q =>
              obtain ⟨els, sk', c', tr'⟩ := q
              rw [hrec] at h
              simp only [Except.ok.injEq, Prod.mk.injEq] at h
              obtain ⟨h1, h2, h3, h4⟩ := h
              subst h4
              obtain ⟨ihpush, ihdom⟩ := ih cache2 (i + 1) els sk' c' tr' hrec
              have htr1 : (cssStep d (setMime idx el)).2 = tr1 := by rw [hcs]
              have htr2 : (sizeStep d idx cache el2).2.2 = tr2 := by rw [hss]
              constructor
              · intro q hq
                rcases List.mem_append.mp hq with hq12 | hq'
                · rcases List.mem_append.mp hq12 with hq1 | hq2
                  · rw [← htr1] at hq1
                    obtain ⟨m1, m2, m3⟩ := cssStep_push_mem d (setMime idx el) q hq1
                    refine ⟨el, List.mem_cons_self el rest, ?_, ?_, ?_⟩
                    · rw [m3]
                      simp [setMime]
                    · simpa [setMime] using m1
                    · simpa [setMime] using m2
                  · rw [← htr2] at hq2
                    obtain ⟨u, hu⟩ := sizeStep_trace d idx cache el2 _ hq2
                    exact absurd hu (by simp)
                · obtain ⟨el0, hel0, hrest⟩ := ihpush q hq'
                  exact ⟨el0, List.mem_cons_of_mem el hel0, hrest⟩
              · intro call hc
                rcases List.mem_append.mp hc with hc12 | hc'
                · rcases List.mem_append.mp hc12 with hc1 | hc2
                  · rw [← htr1] at hc1
                    rcases cssStep_trace d (setMime idx el) call hc1 with hcall | ⟨n, hcall⟩ <;>
                      simp [hcall, isDomainCall]
                  · rw [← htr2] at hc2
                    obtain ⟨u, hu⟩ := sizeStep_trace d idx cache el2 call hc2
                    simp [hu, isDomainCall]
                · exact ihdom call hc'

theorem enrichLoop_error_head (d : Driver) (idx : String → Option NetworkRecord)
    (budget : Nat → Bool) (cache : SizeCache) (i : Nat) (el : ImageElement)
    (rest : List ImageElement) (e : String)
    (hb : budget i = false)
    (hcs : (cssStep d (setMime idx el)).1 = Except.error e) :
    enrichLoop d idx budget cache i (el :: rest) = Except.error e := by
  unfold enrichLoop
  rw [hb]
  simp only [Bool.false_eq_true, if_false]
  cases hpair : cssStep d (setMime idx el) with
  | mk res tr1 =>
    rw [hpair] at hcs
    simp at hcs
    rw [hcs]

theorem afterPass_ok_inv (d : Driver) (records : List NetworkRecord)
    (raw : List ImageElement) (budget : Nat → Bool) (out : List ImageElement) (sk : Nat)
    (tr : List ProtoCall)
    (h : afterPass d records raw budget = Except.ok (out, sk, tr)) :
    ∃ c inner,
      enrichLoop d (indexedNetworkRecords records) budget [] 0
          (sortElements (indexedNetworkRecords records) raw) = Except.ok (out, sk, c, inner) ∧
      tr = [ProtoCall.domEnable, ProtoCall.cssEnable, ProtoCall.domGetDocument]
        ++ inner ++ [ProtoCall.domDisable, ProtoCall.cssDisable] := by
  unfold afterPass at h
  simp only [] at h
  cases he : enrichLoop d (indexedNetworkRecords records) budget [] 0
      (sortElements (indexedNetworkRecords records) raw) with
  | error e =>
    rw [he] at h
    exact absurd h (by simp)
  | ok q =>
    obtain ⟨els, sk', c', tr'⟩ := q
    rw [he] at h
    simp only [Except.ok.injEq, Prod.mk.injEq] at h
    obtain ⟨h1, h2, h3⟩ := h
    subst h1
    subst h2
    exact ⟨c', tr', rfl, h3.symm⟩

theorem afterPass_error (d : Driver) (records : List NetworkRecord)
    (raw : List ImageElement) (budget : Nat → Bool) (e : String)
    (he : enrichLoop d (indexedNetworkRecords records) budget [] 0
        (sortElements (indexedNetworkRecords records) raw) = Except.error e) :
    afterPass d records raw budget = Except.error e := by
  unfold afterPass
  simp only []
  rw [he]

theorem leadFalse_of_true (budget : Nat → Bool) (i : Nat) (hb : budget i = true) :
    ∀ n, leadFalse budget i n = 0 := by
  intro n
  cases n with
  | zero => rfl
  | succ n => simp [leadFalse, hb]

theorem skCount_eq_sub (budget : Nat → Bool)
    (hmono : ∀ a b : Nat, a ≤ b → budget a = true → budget b = true) :
    ∀ (n i : Nat), skCount budget i n = n - leadFalse budget i n := by
  intro n
  induction n with
  | zero => intro i; rfl
  | succ n ihn =>
    intro i
    by_cases hb : budget i = true
    · have hnext : budget (i + 1) = true := hmono i (i + 1) (by omega) hb
      have h0 : leadFalse budget (i + 1) n = 0 := leadFalse_of_true budget (i + 1) hnext n
      have hs := ihn (i + 1)
      rw [h0] at hs
      simp only [skCount, leadFalse, hb, if_true, hs]
      omega
    · have hb' : budget i = false := by
        cases hq : budget i
        · rfl
        · exact absurd hq hb
      have hs := ihn (i + 1)
      simp only [skCount, leadFalse, hb', Bool.false_eq_true, if_false, hs]
      omega

theorem leadFalse_le (budget : Nat → Bool) : ∀ (n i : Nat), leadFalse budget i n ≤ n := by
  intro n
  induction n with
  | zero => intro i; simp [leadFalse]
  | succ n ihn =>
    intro i
    by_cases hb : budget i = true
    · simp [leadFalse, hb]
    · simp only [leadFalse, hb, Bool.false_eq_true, if_false]
      have := ihn (i + 1)
      omega

theorem budget_true_of_leadFalse_le (budget : Nat → Bool)
    (hmono : ∀ a b : Nat, a ≤ b → budget a = true → budget b = true) :
    ∀ (n i j : Nat), j < n → leadFalse budget i n ≤ j → budget (i + j) = true := by
  intro n
  induction n with
  | zero =>
    intro i j hj
    omega
  | succ n ihn =>
    intro i j hj hle
    by_cases hb : budget i = true
    · exact hmono i (i + j) (by omega) hb
    · have hb' : budget i = false := by
        cases hq : budget i
        · rfl
        · exact absurd hq hb
      simp [leadFalse, hb'] at hle
      cases j with
      | zero => omega
      | succ j =>
        have := ihn (i + 1) j (by omega) (by omega)
        have harg : i + 1 + j = i + (j + 1) := by omega
        rw [harg] at this
        exact this

theorem findMostSpecificCSSRule_none (rules : Option (List RuleMatch)) (p : String)
    (h : ∀ rm ∈ rules.getD [], declaresProp (some rm.style) p = false) :
    findMostSpecificCSSRule rules p = none := by
  unfold findMostSpecificCSSRule findMostSpecificMatchedCSSRule
  cases rules with
  | none => rfl
  | some rs =>
    have hfil : rs.filter (fun rm => isTruthyValue (findSizeDeclaration (some rm.style) p)) = [] := by
      rw [List.filter_eq_nil_iff]
      intro a ha
      have hd := h a (by simpa using ha)
      unfold declaresProp at hd
      cases hf : findSizeDeclaration (some a.style) p with
      | none => simp [isTruthyValue]
      | some v =>
        rw [hf] at hd
        simp at hd
    simp [hfil]

theorem indexFold_lookup :
    ∀ (records : List NetworkRecord) (m : String → Option NetworkRecord) (url : String),
      (records.foldl
        (fun map r =>
          if recordEntersIndex r then (fun u => if u == r.url then some r else map u) else map)
        m) url
      = (records.reverse.find? (fun r => recordEntersIndex r && r.url == url)).or (m url) := by
  intro records
  induction records with
  | nil =>
    intro m url
    simp
  | cons r rs ih =>
    intro m url
    simp only [List.foldl_cons, List.reverse_cons]
    rw [ih, List.find?_append]
    cases hf : rs.reverse.find? (fun r => recordEntersIndex r && r.url == url) with
    | some x => simp
    | none =>
      simp only [Option.none_or]
      by_cases hr : recordEntersIndex r = true
      · by_cases hu : url = r.url
        · subst hu
          simp [hr, List.find?]
        · have h1 : (url == r.url) = false := by simpa using hu
          have h2 : (r.url == url) = false := by
            simp only [beq_eq_false_iff_ne, ne_eq]
            intro hq
            exact hu hq.symm
          simp [hr, h1, h2, List.find?]
      · have hr' : recordEntersIndex r = false := by
          cases hq : recordEntersIndex r
          · rfl
          · exact absurd hq hr
        simp [hr', List.find?]

theorem indexedNetworkRecords_lookup (records : List NetworkRecord) (url : String) :
    indexedNetworkRecords records url
      = records.reverse.find? (fun r => recordEntersIndex r && r.url == url) := by
  unfold indexedNetworkRecords
  rw [indexFold_lookup]
  simp

/-! Claim theorems. -/

/-- Claim C1, counterexample.  The claim says that on a cache hit
`fetchElementWithSizeInformation` returns immediately without any protocol
call, so that one probe is made per distinct URL per pass.  On a concrete
call whose cache already holds the URL of the element, the method still
issues the in-page probe (the trace is the one-element probe trace, not
empty), and a pass over two elements with the same URL issues two probes for
that URL, not one. -/
theorem c1_counterexample :
    List.lookup elA.src cacheA = some (3, 4) ∧
    (fetchElementWithSizeInformation dProbeOK cacheA elA).2.2
        = [ProtoCall.evalDetermineNaturalSize elA.src] ∧
    (fetchElementWithSizeInformation dProbeOK cacheA elA).1.naturalWidth = some 7 ∧
    (traceOf runC1).count (ProtoCall.evalDetermineNaturalSize elB.src) = 2 := by
  refine ⟨rfl, rfl, rfl, ?_⟩
  decide

/-- Claim C1, amended.  The cache check copies a cached pair onto the element
but does not return: every call issues exactly one in-page probe for the
element URL regardless of the cache.  A successful probe overwrites the
element and stores into the cache; on probe failure the element keeps the
copied cached pair and the cache is unchanged. -/
theorem c1_amended_cache_behavior (d : Driver) (cache : SizeCache) (el : ImageElement) :
    (fetchElementWithSizeInformation d cache el).2.2
        = [ProtoCall.evalDetermineNaturalSize el.src] ∧
    (∀ w hgt : Nat, d.probe el.src = Except.ok (w, hgt) →
      (fetchElementWithSizeInformation d cache el).1.naturalWidth = some w ∧
      (fetchElementWithSizeInformation d cache el).1.naturalHeight = some hgt ∧
      List.lookup el.src (fetchElementWithSizeInformation d cache el).2.1 = some (w, hgt)) ∧
    (∀ w hgt : Nat, List.lookup el.src cache = some (w, hgt) →
      d.probe el.src = Except.error () →
      (fetchElementWithSizeInformation d cache el).1.naturalWidth = some w ∧
      (fetchElementWithSizeInformation d cache el).1.naturalHeight = some hgt ∧
      (fetchElementWithSizeInformation d cache el).2.1 = cache) := by
  refine ⟨fetchSize_trace d cache el, ?_, ?_⟩
  · intro w hgt hp
    unfold fetchElementWithSizeInformation
    cases hl : List.lookup el.src cache with
    | none => simp [hl, hp, List.lookup]
    | some sz => simp [hl, hp, List.lookup]
  · intro w hgt hl hp
    unfold fetchElementWithSizeInformation
    simp [hl, hp]

/-- Witness for the amended claim C1, at a concrete driver, cache and
element. -/
theorem c1_witness :
    (fetchElementWithSizeInformation dProbeOK cacheA elA).2.2
        = [ProtoCall.evalDetermineNaturalSize elA.src] ∧
    (fetchElementWithSizeInformation dProbeOK cacheA elA).1.naturalWidth = some 7 ∧
    (fetchElementWithSizeInformation dProbeOK cacheA elA).1.naturalHeight = some 8 ∧
    List.lookup elA.src (fetchElementWithSizeInformation dProbeOK cacheA elA).2.1
        = some (7, 8) :=
  ⟨(c1_amended_cache_behavior dProbeOK cacheA elA).1,
   ((c1_amended_cache_behavior dProbeOK cacheA elA).2.1 7 8 rfl).1,
   ((c1_amended_cache_behavior dProbeOK cacheA elA).2.1 7 8 rfl).2.1,
   ((c1_amended_cache_behavior dProbeOK cacheA elA).2.1 7 8 rfl).2.2⟩

/-- Claim C2.  The sort step is claimed to order elements non-increasingly by
matched record resource size, with unmatched elements comparing as size 0.
At a concrete input with an unmatched element before an element matched at
size 100, the comparator subtracts an undefined `resourceSize`, which yields
`NaN`, which `SortCompare` coerces to equal, so the stable sort leaves the
unmatched element first: the output is not non-increasing in the claimed
key.  This contradicts the source comment that the sort puts the largest
images first. -/
theorem c2_sort_eval :
    sortElements (indexedNetworkRecords [recM]) [elU, elM] = [elU, elM] ∧
    indexedNetworkRecords [recM] elU.src = none ∧
    (indexedNetworkRecords [recM] elM.src).map NetworkRecord.resourceSize = some 100 ∧
    ¬ sizeKey (indexedNetworkRecords [recM]) elM
        ≤ sizeKey (indexedNetworkRecords [recM]) elU := by
  refine ⟨rfl, rfl, rfl, ?_⟩
  decide

/-- Claim C3.  The probe guard in the source conjoins the element eligibility
with `networkRecord`, but `networkRecord` is the index entry defaulted to an
empty object, which is always truthy: at a concrete pass over one CSS
background element whose URL has no network record, the probe is issued
anyway, although the source comment says not to bother without a record. -/
theorem c3_probe_without_record :
    indexedNetworkRecords [] elC.src = none ∧
    (traceOf runC3).count (ProtoCall.evalDetermineNaturalSize elC.src) = 1 := by
  refine ⟨rfl, ?_⟩
  decide

/-- Claim C7, counterexample.  The source tests the MIME type against
`/^image/`, not against the prefix `image/`, and tests the extension against
the TAIL OF THE WHOLE URL, not of the URL path: a record with MIME type
`imagex` enters the index though the claim excludes it, and a record whose
path ends in `.webp` but which carries a query string is excluded though the
claim admits it. -/
theorem c7_counterexample :
    recordEntersIndex rexMime = true ∧ claimIndexEligible rexMime = false ∧
    recordEntersIndex rexQuery = false ∧ claimIndexEligible rexQuery = true := by
  refine ⟨?_, ?_, ?_, ?_⟩ <;> decide

/-- Claim C5, counterexample.  The claim keys the cascade precedence on a
source DECLARING the property: an inline declaration should win over an
attribute declaration.  The source keys it on JavaScript truthiness of the
declared value instead, so an inline declaration whose value is the empty
string is passed over: at a concrete response where the inline style declares
`width` with an empty value and the attribute style declares `width` as
`5px`, the resolver returns the attribute value, not the inline one. -/
theorem c5_counterexample :
    declaresProp mEmptyInline.inlineStyle widthProp = true ∧
    findSizeDeclaration mEmptyInline.inlineStyle widthProp = some emptyStr ∧
    getEffectiveSizingRule mEmptyInline widthProp = some px5 ∧
    findSizeDeclaration mEmptyInline.attributesStyle widthProp = some px5 := by
  refine ⟨rfl, rfl, rfl, rfl⟩

/-- Claim C5, amended.  The effective sizing rule resolves with precedence
inline, then attribute-derived, then most specific matched stylesheet rule,
among sources whose declared value is nonempty; a declaration with an empty
value falls through as if absent.  When no source declares the property the
result is absent: null in the structured pair and undefined in the
compatibility fields, both of which `fetchSourceRules` writes from the same
resolved pair on a successful protocol exchange. -/
theorem c5_amended_cascade (m : MatchedStyles) (p : String) :
    (∀ v : String, findSizeDeclaration m.inlineStyle p = some v → v ≠ "" →
      getEffectiveSizingRule m p = some v) ∧
    (isTruthyValue (findSizeDeclaration m.inlineStyle p) = false →
      ∀ v : String, findSizeDeclaration m.attributesStyle p = some v → v ≠ "" →
        getEffectiveSizingRule m p = some v) ∧
    (isTruthyValue (findSizeDeclaration m.inlineStyle p) = false →
      isTruthyValue (findSizeDeclaration m.attributesStyle p) = false →
      ∀ v : String, findMostSpecificCSSRule m.matchedCSSRules p = some v → v ≠ "" →
        getEffectiveSizingRule m p = some v) ∧
    (declaresProp m.inlineStyle p = false → declaresProp m.attributesStyle p = false →
      (∀ rm ∈ m.matchedCSSRules.getD [], declaresProp (some rm.style) p = false) →
      getEffectiveSizingRule m p = none) ∧
    (∀ (d : Driver) (path : String) (el : ImageElement) (n : Nat),
      d.pushNode path = Except.ok n → (n == 0) = false → d.matchedStyles n = Except.ok m →
      (fetchSourceRules d path el).1 = Except.ok
        { el with
          cssWidth := getEffectiveSizingRule m widthProp
          cssHeight := getEffectiveSizingRule m heightProp
          privateCssSizing :=
            some (getEffectiveSizingRule m widthProp, getEffectiveSizingRule m heightProp) }) := by
  refine ⟨?_, ?_, ?_, ?_, ?_⟩
  · intro v hv hne
    have ht : isTruthyValue (some v) = true := by simpa [isTruthyValue] using hne
    simp [getEffectiveSizingRule, hv, ht]
  · intro hi v hv hne
    have ht : isTruthyValue (some v) = true := by simpa [isTruthyValue] using hne
    simp [getEffectiveSizingRule, hi, hv, ht]
  · intro hi ha v hv hne
    have ht : isTruthyValue (some v) = true := by simpa [isTruthyValue] using hne
    simp [getEffectiveSizingRule, hi, ha, hv, ht]
  · intro hi ha hr
    have hi' : findSizeDeclaration m.inlineStyle p = none := by
      cases hf : findSizeDeclaration m.inlineStyle p with
      | none => rfl
      | some v =>
        unfold declaresProp at hi
        rw [hf] at hi
        simp at hi
    have ha' : findSizeDeclaration m.attributesStyle p = none := by
      cases hf : findSizeDeclaration m.attributesStyle p with
      | none => rfl
      | some v =>
        unfold declaresProp at ha
        rw [hf] at ha
        simp at ha
    have hm' : findMostSpecificCSSRule m.matchedCSSRules p = none :=
      findMostSpecificCSSRule_none m.matchedCSSRules p hr
    simp [getEffectiveSizingRule, hi', ha', hm', isTruthyValue]
  · intro d path el n hp hz hs
    unfold fetchSourceRules
    rw [hp]
    simp only [hz, Bool.false_eq_true, if_false]
    rw [hs]

/-- Witness for the amended claim C5 at a concrete response in which all
three sources declare `width` with nonempty values. -/
theorem c5_witness :
    getEffectiveSizingRule mFull widthProp = some px7 ∧
    (fetchSourceRules dFull elImg.devtoolsNodePath elImg).1 = Except.ok
      { elImg with
        cssWidth := getEffectiveSizingRule mFull widthProp
        cssHeight := getEffectiveSizingRule mFull heightProp
        privateCssSizing :=
          some (getEffectiveSizingRule mFull widthProp,
            getEffectiveSizingRule mFull heightProp) } :=
  ⟨(c5_amended_cascade mFull widthProp).1 px7 rfl (by decide),
   (c5_amended_cascade mFull widthProp).2.2.2.2 dFull elImg.devtoolsNodePath elImg 2
     rfl rfl rfl⟩

/-- Claim C6.  During CSS sizing resolution, a protocol failure whose message
matches the node-gone test makes `fetchSourceRules` return with the element
untouched — whether the push or the matched-styles query failed — while a
failure with any other message is rethrown; a rethrown error propagates out
of the enrichment loop and aborts the whole pass with that error, so the
caller receives a failure rather than a partial result. -/
theorem c6_error_policy :
    (∀ (d : Driver) (p : String) (el : ImageElement) (e : String),
      d.pushNode p = Except.error e →
      ((isNodeNotFoundMsg e = true → (fetchSourceRules d p el).1 = Except.ok el) ∧
       (isNodeNotFoundMsg e = false → (fetchSourceRules d p el).1 = Except.error e))) ∧
    (∀ (d : Driver) (p : String) (el : ImageElement) (n : Nat) (e : String),
      d.pushNode p = Except.ok n → (n == 0) = false → d.matchedStyles n = Except.error e →
      ((isNodeNotFoundMsg e = true → (fetchSourceRules d p el).1 = Except.ok el) ∧
       (isNodeNotFoundMsg e = false → (fetchSourceRules d p el).1 = Except.error e))) ∧
    (∀ (d : Driver) (idx : String → Option NetworkRecord) (budget : Nat → Bool)
      (cache : SizeCache) (i : Nat) (el : ImageElement) (rest : List ImageElement)
      (e : String),
      budget i = false → (cssStep d (setMime idx el)).1 = Except.error e →
      enrichLoop d idx budget cache i (el :: rest) = Except.error e) ∧
    (∀ (d : Driver) (records : List NetworkRecord) (raw : List ImageElement)
      (budget : Nat → Bool) (e : String),
      enrichLoop d (indexedNetworkRecords records) budget [] 0
          (sortElements (indexedNetworkRecords records) raw) = Except.error e →
      afterPass d records raw budget = Except.error e) := by
  refine ⟨?_, ?_, enrichLoop_error_head, afterPass_error⟩
  · intro d p el e hp
    constructor
    · intro hm
      unfold fetchSourceRules
      rw [hp]
      simp [hm]
    · intro hm
      unfold fetchSourceRules
      rw [hp]
      simp [hm]
  · intro d p el n e hp hz hs
    constructor
    · intro hm
      unfold fetchSourceRules
      rw [hp]
      simp only [hz, Bool.false_eq_true, if_false]
      rw [hs]
      simp [hm]
    · intro hm
      unfold fetchSourceRules
      rw [hp]
      simp only [hz, Bool.false_eq_true, if_false]
      rw [hs]
      simp [hm]

/-- Witness for claim C6 at concrete drivers: a node-gone push error is
swallowed with the element untouched, a node-gone matched-styles error is
swallowed likewise, an unexpected push error is rethrown, and the same
unexpected error aborts a whole concrete pass. -/
theorem c6_witness :
    (fetchSourceRules dNodeGone elImg.devtoolsNodePath elImg).1 = Except.ok elImg ∧
    (fetchSourceRules dStylesGone elImg.devtoolsNodePath elImg).1 = Except.ok elImg ∧
    (fetchSourceRules dErr elImg.devtoolsNodePath elImg).1 = Except.error errBoom ∧
    afterPass dErr [] [elImg] budgetNever = Except.error errBoom :=
  ⟨(c6_error_policy.1 dNodeGone elImg.devtoolsNodePath elImg msgNodeGone rfl).1 (by decide),
   (c6_error_policy.2.1 dStylesGone elImg.devtoolsNodePath elImg 5 msgNodeGone rfl rfl
     rfl).1 (by decide),
   (c6_error_policy.1 dErr elImg.devtoolsNodePath elImg errBoom rfl).2 (by decide),
   c6_error_policy.2.2.2 dErr [] [elImg] budgetNever errBoom rfl⟩

/-- Claim C8.  The DOM scan copies natural dimensions from the live element
exactly for `img` elements with empty `srcset` and no `picture` parent, and
leaves them unset for elements carrying a `srcset` or nested in `picture`;
the scan is a pure in-page function and issues no protocol call. -/
theorem c8_natural_size_trust (els : List DOMElement) :
    getHTMLImages els = (els.filter (fun e => e.localName == imgTag)).map htmlImageElement ∧
    (∀ e : DOMElement, e.srcset = "" → e.parentTagName ≠ some pictureTag →
      (htmlImageElement e).naturalWidth = some e.naturalWidth ∧
      (htmlImageElement e).naturalHeight = some e.naturalHeight) ∧
    (∀ e : DOMElement, e.srcset ≠ "" ∨ e.parentTagName = some pictureTag →
      (htmlImageElement e).naturalWidth = none ∧
      (htmlImageElement e).naturalHeight = none) := by
  refine ⟨rfl, ?_, ?_⟩
  · intro e hs hp
    have h1 : (e.parentTagName == some pictureTag) = false := by simpa using hp
    have h2 : (e.srcset == "") = true := by simpa using hs
    simp [htmlImageElement, h1, h2]
  · intro e h
    rcases h with h | h
    · have h2 : (e.srcset == "") = false := by simpa using h
      simp [htmlImageElement, h2]
    · have h1 : (e.parentTagName == some pictureTag) = true := by simpa using h
      simp [htmlImageElement, h1]

/-- Witness for claim C8 at two concrete DOM elements: one trusted `img`
whose natural width is copied, one srcset-bearing `img` whose natural width
is left unset. -/
theorem c8_witness :
    (htmlImageElement eTrusted).naturalWidth = some 42 ∧
    (htmlImageElement eSrcset).naturalWidth = none :=
  ⟨((c8_natural_size_trust []).2.1 eTrusted rfl (by decide)).1,
   ((c8_natural_size_trust []).2.2 eSrcset (Or.inl (by decide))).1⟩

/-- Claim C7, amended.  A record enters the network index exactly when it
finished with status code exactly 200 and either its MIME type string starts
with `image` (no slash required) or the whole URL ends in `.avif` or `.webp`
case-insensitively; the index maps each URL to the most recently observed
such record (last write wins); a status-200 unfinished record does not
populate the index, and an octet-stream record whose URL ends in `.webp`
does. -/
theorem c7_amended_index_filter :
    (∀ r : NetworkRecord, recordEntersIndex r = true ↔
      (r.finished = true ∧ r.statusCode = 200 ∧
        (strStartsWith r.mimeType mimeStart = true ∨ endsWithImageExt r.url = true))) ∧
    (∀ (records : List NetworkRecord) (url : String),
      indexedNetworkRecords records url
        = records.reverse.find? (fun r => recordEntersIndex r && r.url == url)) ∧
    indexedNetworkRecords [rexUnfinished] rexUnfinished.url = none ∧
    indexedNetworkRecords [rexWebp] rexWebp.url = some rexWebp := by
  refine ⟨?_, indexedNetworkRecords_lookup, rfl, rfl⟩
  intro r
  unfold recordEntersIndex
  constructor
  · intro h
    simp only [Bool.and_eq_true, Bool.or_eq_true, beq_iff_eq] at h
    exact ⟨h.1.2, h.2, h.1.1⟩
  · rintro ⟨hf, hs, hm⟩
    simp only [Bool.and_eq_true, Bool.or_eq_true, beq_iff_eq]
    exact ⟨⟨hm, hf⟩, hs⟩

/-- Witness for the amended claim C7 at a concrete record. -/
theorem c7_witness :
    recordEntersIndex rexWebp = true ∧
    indexedNetworkRecords [rexWebp] rexWebp.url = some rexWebp :=
  ⟨(c7_amended_index_filter.1 rexWebp).mpr ⟨rfl, rfl, Or.inr (by decide)⟩,
   c7_amended_index_filter.2.2.2⟩

/-- Claim C4.  On any pass that completes without a protocol error, under a
monotone budget flag: the output has one element per raw element; the
reported skipped count is N minus K, where K is the number of leading sorted
elements processed before the flag was first seen set; every output element
carries the mimeType of its matched network record (and nothing when there is
no record), regardless of budget state; and every element at sort position at
least K is exactly its sorted input with only the mimeType attached, so only
the first K elements receive CSS-sizing or natural-size enrichment. -/
theorem c4_budget_degradation (d : Driver) (records : List NetworkRecord)
    (raw : List ImageElement) (budget : Nat → Bool) (out : List ImageElement) (sk : Nat)
    (tr : List ProtoCall)
    (hmono : ∀ a b : Nat, a ≤ b → budget a = true → budget b = true)
    (hok : afterPass d records raw budget = Except.ok (out, sk, tr)) :
    out.length = raw.length ∧
    sk = raw.length - leadFalse budget 0 raw.length ∧
    (∀ el ∈ out,
      el.mimeType = ((indexedNetworkRecords records) el.src).map NetworkRecord.mimeType) ∧
    (∀ j : Nat, leadFalse budget 0 raw.length ≤ j →
      out[j]? = ((sortElements (indexedNetworkRecords records) raw)[j]?).map
        (setMime (indexedNetworkRecords records))) := by
  obtain ⟨c, inner, he, htr⟩ := afterPass_ok_inv d records raw budget out sk tr hok
  have hslen : (sortElements (indexedNetworkRecords records) raw).length = raw.length :=
    length_sortElements (indexedNetworkRecords records) raw
  obtain ⟨hlen, hsk⟩ := enrichLoop_ok_len_sk d (indexedNetworkRecords records) budget
    (sortElements (indexedNetworkRecords records) raw) [] 0 out sk c inner he
  obtain ⟨hskip, hcore⟩ := enrichLoop_ok_pointwise d (indexedNetworkRecords records) budget
    (sortElements (indexedNetworkRecords records) raw) [] 0 out sk c inner he
  refine ⟨by rw [hlen, hslen], ?_, ?_, ?_⟩
  · rw [hsk, hslen, skCount_eq_sub budget hmono]
  · intro el hel
    obtain ⟨j, hj⟩ := List.mem_iff_getElem?.mp hel
    have hjlt : j < (sortElements (indexedNetworkRecords records) raw).length := by
      have : j < out.length := by
        by_contra hge
        rw [List.getElem?_eq_none (by omega)] at hj
        exact Option.noConfusion hj
      omega
    cases hs0 : (sortElements (indexedNetworkRecords records) raw)[j]? with
    | none =>
      rw [List.getElem?_eq_none_iff] at hs0
      omega
    | some el0 =>
      obtain ⟨el', hout, f1, f2, f3, f4, f5, f6, f7, _⟩ := hcore j el0 hs0
      rw [hj] at hout
      have hel' : el' = el := by
        exact (Option.some.injEq el' el).mp hout.symm
      subst hel'
      rw [f7, f1]
  · intro j hKj
    by_cases hjlt : j < raw.length
    · have hb : budget j = true := by
        have := budget_true_of_leadFalse_le budget hmono raw.length 0 j hjlt hKj
        simpa using this
      have := hskip j (by simpa using hb)
      simpa using this
    · rw [List.getElem?_eq_none (by omega), List.getElem?_eq_none (by omega)]
      rfl

/-- Witness for claim C4 at a concrete pass whose budget is expired from the
start: both elements are kept, and both count as skipped. -/
theorem c4_witness :
    (elementsOf runC4).length = 2 ∧
    skippedOf runC4 = 2 - leadFalse budgetAlways 0 2 := by
  have h := c4_budget_degradation dProbeOK [recB] [elB, elU] budgetAlways
    (elementsOf runC4) (skippedOf runC4) (traceOf runC4) (fun _ _ _ hb => hb) rfl
  exact ⟨h.1, h.2.1⟩

/-- Claim C9.  On any pass that completes, whatever the budget schedule, the
trace is exactly one DOM enable, one CSS enable and the piercing document
fetch, then the per-element calls (none of which enables or disables a
domain), then one DOM disable and one CSS disable: each domain command is
issued exactly once, bracketing the whole enrichment loop, including runs
whose budget expired before or during the loop. -/
theorem c9_domain_bracketing (d : Driver) (records : List NetworkRecord)
    (raw : List ImageElement) (budget : Nat → Bool) (out : List ImageElement) (sk : Nat)
    (tr : List ProtoCall)
    (hok : afterPass d records raw budget = Except.ok (out, sk, tr)) :
    ∃ inner,
      tr = [ProtoCall.domEnable, ProtoCall.cssEnable, ProtoCall.domGetDocument]
          ++ inner ++ [ProtoCall.domDisable, ProtoCall.cssDisable] ∧
      (∀ call ∈ inner, isDomainCall call = false) ∧
      tr.count ProtoCall.domEnable = 1 ∧ tr.count ProtoCall.cssEnable = 1 ∧
      tr.count ProtoCall.domDisable = 1 ∧ tr.count ProtoCall.cssDisable = 1 := by
  obtain ⟨c, inner, he, htr⟩ := afterPass_ok_inv d records raw budget out sk tr hok
  have hdom := (enrichLoop_ok_trace d (indexedNetworkRecords records) budget
    (sortElements (indexedNetworkRecords records) raw) [] 0 out sk c inner he).2
  have hz : ∀ x : ProtoCall, isDomainCall x = true → inner.count x = 0 := by
    intro x hx
    rw [List.count_eq_zero]
    intro hmem
    have hfalse := hdom x hmem
    rw [hfalse] at hx
    exact absurd hx (by decide)
  refine ⟨inner, htr, hdom, ?_, ?_, ?_, ?_⟩
  · rw [htr, List.count_append, List.count_append, hz ProtoCall.domEnable rfl]
    decide
  · rw [htr, List.count_append, List.count_append, hz ProtoCall.cssEnable rfl]
    decide
  · rw [htr, List.count_append, List.count_append, hz ProtoCall.domDisable rfl]
    decide
  · rw [htr, List.count_append, List.count_append, hz ProtoCall.cssDisable rfl]
    decide

/-- Witness for claim C9 at a concrete pass whose budget expired before the
loop began: the domain commands are still issued exactly once each. -/
theorem c9_witness :
    (traceOf runC9).count ProtoCall.domEnable = 1 ∧
    (traceOf runC9).count ProtoCall.domDisable = 1 := by
  obtain ⟨inner, htr, hfree, h1, h2, h3, h4⟩ := c9_domain_bracketing dProbeOK [] [elB]
    budgetAlways (elementsOf runC9) (skippedOf runC9) (traceOf runC9) rfl
  exact ⟨h1, h3⟩

/-- Claim C10.  In any completed pass, every node push in the trace comes
from an element that is neither inside a shadow DOM nor a CSS background
image — the CSS Sizing Resolver always starts with such a push, so it is
invoked only for those elements — and every shadow-DOM or CSS-background
element leaves the loop with its cssWidth, cssHeight and structured sizing
pair exactly as they entered. -/
theorem c10_css_resolver_guard (d : Driver) (records : List NetworkRecord)
    (raw : List ImageElement) (budget : Nat → Bool) (out : List ImageElement) (sk : Nat)
    (tr : List ProtoCall)
    (hok : afterPass d records raw budget = Except.ok (out, sk, tr)) :
    (∀ q : String, ProtoCall.pushNodeByPath q ∈ tr →
      ∃ el0 ∈ sortElements (indexedNetworkRecords records) raw,
        el0.devtoolsNodePath = q ∧ el0.isInShadowDOM = false ∧ el0.isCss = false) ∧
    (∀ (j : Nat) (el0 : ImageElement),
      (sortElements (indexedNetworkRecords records) raw)[j]? = some el0 →
      el0.isInShadowDOM = true ∨ el0.isCss = true →
      ∃ el', out[j]? = some el' ∧ el'.cssWidth = el0.cssWidth ∧
        el'.cssHeight = el0.cssHeight ∧ el'.privateCssSizing = el0.privateCssSizing) := by
  obtain ⟨c, inner, he, htr⟩ := afterPass_ok_inv d records raw budget out sk tr hok
  obtain ⟨hpush, hdom⟩ := enrichLoop_ok_trace d (indexedNetworkRecords records) budget
    (sortElements (indexedNetworkRecords records) raw) [] 0 out sk c inner he
  obtain ⟨hskip, hcore⟩ := enrichLoop_ok_pointwise d (indexedNetworkRecords records) budget
    (sortElements (indexedNetworkRecords records) raw) [] 0 out sk c inner he
  constructor
  · intro q hq
    rw [htr] at hq
    rcases List.mem_append.mp hq with hq1 | hq2
    · rcases List.mem_append.mp hq1 with hqa | hqb
      · simp at hqa
      · exact hpush q hqb
    · simp at hq2
  · intro j el0 hs0 hflag
    obtain ⟨el', hout, g1, g2, g3, g4, g5, g6, g7, hcss⟩ := hcore j el0 hs0
    obtain ⟨cw, ch, cp⟩ := hcss hflag
    exact ⟨el', hout, cw, ch, cp⟩

/-- Witness for claim C10 at a concrete pass over one CSS background element:
its CSS sizing fields leave the loop unset, exactly as they entered. -/
theorem c10_witness :
    ((elementsOf runC10)[0]?).map ImageElement.cssWidth = some elC.cssWidth ∧
    ((elementsOf runC10)[0]?).map ImageElement.privateCssSizing
        = some elC.privateCssSizing := by
  obtain ⟨hpush, hcc⟩ := c10_css_resolver_guard dProbeOK [] [elC] budgetNever
    (elementsOf runC10) (skippedOf runC10) (traceOf runC10) rfl
  obtain ⟨el', hout, cw, ch, cp⟩ := hcc 0 elC rfl (Or.inr rfl)
  rw [hout]
  simp [cw, cp]
